import Mathlib

set_option maxRecDepth 40000

/-!
# Verification of the vector-embeddings DAG
  (src/generative-ai/dags/example_vector_embeddings_no_comments.py)

A shallow embedding of the three storage tasks of the DAG:

* `create_vector_table`  (source lines 76-100): connects to DuckDB, overwrites
  its `table_name` argument with the constant string "embeddings_table"
  (line 87), executes `CREATE OR REPLACE TABLE` followed by
  `CREATE INDEX my_hnsw_index ... USING HNSW (vec)`, and closes the cursor.
* `insert_words_into_db` (source lines 102-123): loops over the batch and runs
  one auto-committed `INSERT` per record; DuckDB rejects a value whose list
  length differs from the column type `FLOAT[384]` with a conversion
  (dimension-mismatch) error, which aborts the loop; `cursor.close()`
  (line 123) runs only when no statement raised.
* `find_closest_word_match` (source lines 134-159): runs
  `SELECT text FROM t ORDER BY array_distance(vec, q::FLOAT[384]) LIMIT 3`
  and returns `fetchall()`; the cast fails unless the query vector has
  length 384; only the `text` column is selected; this task never calls
  `cursor.close()`.

Float scalars are modelled as integers (any linearly ordered commutative ring
gives the same ordering semantics; integers keep every concrete statement
decidable).  `array_distance` (Euclidean distance) is
modelled by the squared L2 distance `distSq`, which induces the same ordering;
`ORDER BY` is modelled as a stable sort on that key (rows that compare equal
keep their table order).  The HNSW index affects performance only, never
results, so query semantics are an exact scan.
-/

namespace VectorEmbeddings

/-- One row of the embeddings table: column `text STRING`, column
`vec FLOAT[384]` (float scalars modelled as integers). -/
structure Record where
  text : String
  vec  : List ℤ
deriving DecidableEq

/-- The fixed dimensionality of the `vec FLOAT[384]` column (source line 93). -/
def dim : Nat := 384

/-- Errors surfaced by the DuckDB layer: the conversion error raised when a
list value cannot be cast to `FLOAT[384]`, and the catalog error raised when a
`CREATE INDEX` name collides with an existing index. -/
inductive VErr where
  | dimensionMismatch
  | catalogError
deriving DecidableEq

/-- Squared L2 distance between two equal-length vectors; order-equivalent to
DuckDB `array_distance` (Euclidean distance). -/
def distSq (q v : List ℤ) : ℤ :=
  (List.zipWith (fun a b => (a - b) ^ 2) q v).sum

/-- The comparison key of the query's `ORDER BY array_distance(vec, q)`. -/
def distLe (q : List ℤ) (a b : Record) : Prop :=
  distSq q a.vec ≤ distSq q b.vec

instance (q : List ℤ) : DecidableRel (distLe q) := fun a b =>
  inferInstanceAs (Decidable (distSq q a.vec ≤ distSq q b.vec))

instance (q : List ℤ) : IsTotal Record (distLe q) :=
  ⟨fun a b => le_total (distSq q a.vec) (distSq q b.vec)⟩

instance (q : List ℤ) : IsTrans Record (distLe q) :=
  ⟨fun _ _ _ hab hbc => le_trans hab hbc⟩

/-- The DuckDB catalog as far as the DAG touches it: named tables with their
rows, and named indexes with the table each one is built on. -/
structure DB where
  tables  : List (String × List Record)
  indexes : List (String × String)
deriving DecidableEq

/-- The rows of table `n` (empty when `n` does not exist). -/
def DB.rowsOf (db : DB) (n : String) : List Record :=
  match db.tables.find? (fun p => p.1 = n) with
  | some p => p.2
  | none => []

/-- `create_vector_table` (source lines 76-100).  The `table_name` parameter is
overwritten with the constant `"embeddings_table"` (line 87) before any SQL
runs.  `CREATE OR REPLACE TABLE` drops any prior table of that name together
with the indexes built on it, then creates the empty table;
`CREATE INDEX my_hnsw_index` then fails with a catalog error if an index of
that name still exists.  Returns the resulting catalog, the error if any, and
whether `cursor.close()` (line 100) was reached. -/
def create_vector_table (db : DB) (table_name : String) :
    DB × Option VErr × Bool :=
  let table_name := "embeddings_table"
  let tables1 := db.tables.filter (fun p => ¬ p.1 = table_name)
  let indexes1 := db.indexes.filter (fun p => ¬ p.2 = table_name)
  let tables2 := (table_name, ([] : List Record)) :: tables1
  if "my_hnsw_index" ∈ indexes1.map Prod.fst then
    (⟨tables2, indexes1⟩, some VErr.catalogError, false)
  else
    (⟨tables2, ("my_hnsw_index", table_name) :: indexes1⟩, none, true)

/-- The `for` loop of `insert_words_into_db` (source lines 112-121): one
auto-committed `INSERT` per record.  A record whose vector length is not 384
raises a conversion (dimension-mismatch) error, aborting the loop; rows
inserted by earlier iterations stay committed.  Returns the rows visible after
the call and the error if any. -/
def insertLoop : List Record → List Record → List Record × Option VErr
  | rows, [] => (rows, none)
  | rows, r :: rs =>
      if r.vec.length = dim then insertLoop (rows ++ [r]) rs
      else (rows, some VErr.dimensionMismatch)

/-- `insert_words_into_db` (source lines 102-123): runs the insert loop over
the batch; `cursor.close()` (line 123) is reached only when no statement
raised.  Returns the visible rows, the error if any, and the closed flag. -/
def insert_words_into_db (rows batch : List Record) :
    List Record × Option VErr × Bool :=
  let res := insertLoop rows batch
  (res.1, res.2, res.2.isNone)

/-- `find_closest_word_match` (source lines 134-159):
`SELECT text FROM t ORDER BY array_distance(vec, q::FLOAT[384]) LIMIT 3`.
The cast `q::FLOAT[384]` fails with a conversion error unless `q` has length
384; otherwise the rows are stably sorted by distance to `q`, only the `text`
column is selected, and `LIMIT 3` keeps the first three.  This task has no
`cursor.close()` call on any path, so the closed flag is always `false`. -/
def find_closest_word_match (rows : List Record) (q : List ℤ) :
    Except VErr (List String) × Bool :=
  if q.length = dim then
    (Except.ok (((List.insertionSort (distLe q) rows).map Record.text).take 3),
      false)
  else
    (Except.error VErr.dimensionMismatch, false)

/-- Strict version of the query's comparison key. -/
def distLt (q : List ℤ) (a b : Record) : Prop :=
  distSq q a.vec < distSq q b.vec

instance (q : List ℤ) : IsAntisymm Record (distLt q) :=
  ⟨fun _ _ h₁ h₂ => absurd h₂ (not_lt.mpr h₁.le)⟩

/-- The all-zero query vector of length 384, used for concrete instances. -/
def q0 : List ℤ := List.replicate 384 0

/-- A length-384 vector whose first coordinate is `x` and the rest zero; its
squared distance to `q0` is `x ^ 2`. -/
def vecOf (x : ℤ) : List ℤ := x :: List.replicate 383 0

/-- A concrete four-row table whose rows are at pairwise distinct distances
1, 4, 9, 16 from `q0`. -/
def rows4 : List Record :=
  [⟨"a", vecOf 1⟩, ⟨"b", vecOf 2⟩, ⟨"c", vecOf 3⟩, ⟨"d", vecOf 4⟩]

/-! ## Helper lemmas -/

/-- A batch that inserts without error consists of vectors of length 384. -/
theorem insertLoop_ok_valid (batch : List Record) :
    ∀ rows, (insertLoop rows batch).2 = none →
      ∀ s ∈ batch, s.vec.length = dim := by
  induction batch with
  | nil => intro rows _ s hs; cases hs
  | cons r rs ih =>
      intro rows hnone s hs
      by_cases hr : r.vec.length = dim
      · simp only [insertLoop, if_pos hr] at hnone
        rcases List.mem_cons.mp hs with h | h
        · exact h ▸ hr
        · exact ih (rows ++ [r]) hnone s h
      · simp only [insertLoop, if_neg hr] at hnone
        cases hnone

/-- A batch of valid records inserts completely, in order, with no error. -/
theorem insertLoop_all_valid (batch : List Record) :
    ∀ rows, (∀ r ∈ batch, r.vec.length = dim) →
      insertLoop rows batch = (rows ++ batch, none) := by
  induction batch with
  | nil => intro rows _; simp [insertLoop]
  | cons r rs ih =>
      intro rows h
      have hr : r.vec.length = dim := h r (List.mem_cons_self r rs)
      have ht := ih (rows ++ [r]) (fun s hs => h s (List.mem_cons_of_mem _ hs))
      simp only [insertLoop, if_pos hr, ht]
      simp

/-- The loop commits the valid records preceding the first invalid one and
stops there with a dimension-mismatch error. -/
theorem insertLoop_stops_at_invalid (pre : List Record) :
    ∀ rows post (r : Record), (∀ s ∈ pre, s.vec.length = dim) →
      ¬ r.vec.length = dim →
      insertLoop rows (pre ++ r :: post) =
        (rows ++ pre, some VErr.dimensionMismatch) := by
  induction pre with
  | nil => intro rows post r _ hr; simp [insertLoop, if_neg hr]
  | cons s ss ih =>
      intro rows post r h hr
      have hs : s.vec.length = dim := h s (List.mem_cons_self s ss)
      have ht := ih (rows ++ [s]) post r
        (fun t htm => h t (List.mem_cons_of_mem _ htm)) hr
      simp only [List.cons_append, insertLoop, if_pos hs]
      show insertLoop (rows ++ [s]) (ss ++ r :: post) = _
      rw [ht]
      simp

/-- The query returns the texts of the `min 3 n` rows closest to `q`, in
ascending distance order: there is a split of a distance-sorted permutation of
the rows whose first part is what the query returns. -/
theorem find_closest_topThree (rows : List Record) (q : List ℤ)
    (h : q.length = dim) :
    ∃ t d : List Record,
      rows.Perm (t ++ d) ∧
      (find_closest_word_match rows q).1 = Except.ok (t.map Record.text) ∧
      List.Sorted (distLe q) t ∧
      (∀ a ∈ t, ∀ b ∈ d, distLe q a b) ∧
      t.length = min 3 rows.length := by
  have hs : List.Pairwise (distLe q) (List.insertionSort (distLe q) rows) :=
    List.sorted_insertionSort (distLe q) rows
  have hp : (List.insertionSort (distLe q) rows).Perm rows :=
    List.perm_insertionSort (distLe q) rows
  rw [← List.take_append_drop 3 (List.insertionSort (distLe q) rows)] at hs
  refine ⟨(List.insertionSort (distLe q) rows).take 3,
          (List.insertionSort (distLe q) rows).drop 3, ?_, ?_, ?_, ?_, ?_⟩
  · rw [List.take_append_drop]; exact hp.symm
  · simp [find_closest_word_match, h, List.map_take]
  · exact (List.pairwise_append.mp hs).1
  · exact (List.pairwise_append.mp hs).2.2
  · rw [List.length_take, hp.length_eq]

/-- On a batch whose distances to `q` are pairwise distinct, the sort result
does not depend on the order of the input list. -/
theorem insertionSort_eq_of_perm_of_ne (q : List ℤ) {l₁ l₂ : List Record}
    (hp : l₁.Perm l₂)
    (hd : l₁.Pairwise fun a b => distSq q a.vec ≠ distSq q b.vec) :
    List.insertionSort (distLe q) l₁ = List.insertionSort (distLe q) l₂ := by
  have hp₁ : (List.insertionSort (distLe q) l₁).Perm l₁ :=
    List.perm_insertionSort (distLe q) l₁
  have hp₂ : (List.insertionSort (distLe q) l₂).Perm l₂ :=
    List.perm_insertionSort (distLe q) l₂
  have hs₁ : List.Pairwise (distLe q) (List.insertionSort (distLe q) l₁) :=
    List.sorted_insertionSort (distLe q) l₁
  have hs₂ : List.Pairwise (distLe q) (List.insertionSort (distLe q) l₂) :=
    List.sorted_insertionSort (distLe q) l₂
  have hperm : (List.insertionSort (distLe q) l₁).Perm
      (List.insertionSort (distLe q) l₂) := hp₁.trans (hp.trans hp₂.symm)
  have hd₁ : (List.insertionSort (distLe q) l₁).Pairwise
      fun a b => distSq q a.vec ≠ distSq q b.vec :=
    (hp₁.pairwise_iff (fun hab => Ne.symm hab)).mpr hd
  have hd₂ : (List.insertionSort (distLe q) l₂).Pairwise
      fun a b => distSq q a.vec ≠ distSq q b.vec :=
    ((hp₂.trans hp.symm).pairwise_iff (fun hab => Ne.symm hab)).mpr hd
  have hlt₁ : (List.insertionSort (distLe q) l₁).Pairwise (distLt q) :=
    (hs₁.and hd₁).imp (fun hab => lt_of_le_of_ne hab.1 hab.2)
  have hlt₂ : (List.insertionSort (distLe q) l₂).Pairwise (distLt q) :=
    (hs₂.and hd₂).imp (fun hab => lt_of_le_of_ne hab.1 hab.2)
  exact List.eq_of_perm_of_sorted hperm hlt₁ hlt₂

/-- When every index named "my_hnsw_index" (if any) lives on the embeddings
table, `create_vector_table` succeeds: the old table and its indexes are
dropped, the empty table and a fresh index are created, and the cursor is
closed. -/
theorem create_vector_table_ok (db : DB) (nm : String)
    (h : ∀ p ∈ db.indexes, p.1 = "my_hnsw_index" → p.2 = "embeddings_table") :
    create_vector_table db nm =
      (⟨("embeddings_table", []) ::
          db.tables.filter (fun p => ¬ p.1 = "embeddings_table"),
        ("my_hnsw_index", "embeddings_table") ::
          db.indexes.filter (fun p => ¬ p.2 = "embeddings_table")⟩,
       none, true) := by
  have hmem : "my_hnsw_index" ∉
      (db.indexes.filter (fun p => ¬ p.2 = "embeddings_table")).map Prod.fst := by
    intro hmem
    rcases List.mem_map.mp hmem with ⟨p, hp, hfst⟩
    rcases List.mem_filter.mp hp with ⟨hpdb, hpt⟩
    have hpe : p.2 = "embeddings_table" := h p hpdb hfst
    simp [hpe] at hpt
  simp [create_vector_table, hmem]
  intro x hx
  exact h ("my_hnsw_index", x) hx rfl

/-- `rowsOf` returns the rows of the table at the head of the catalog. -/
theorem rowsOf_head (tail : List (String × List Record))
    (idx : List (String × String)) (rows : List Record) (n : String) :
    DB.rowsOf ⟨(n, rows) :: tail, idx⟩ n = rows := by
  simp [DB.rowsOf, List.find?_cons_of_pos]

/-! ## Claim theorems -/

/-- Claim C1 (counterexample).  The claim asks that for all `k ≤ n` the query
return exactly the `k` closest entries; but `find_closest_word_match` exposes
no `k` parameter and its `LIMIT` is the constant 3.  On the four-row table
`rows4` (so `k = 4 ≤ n = 4` is allowed by the claim) the query returns only
three entries, not four. -/
theorem find_closest_no_k_parameter :
    rows4.length = 4 ∧
    (find_closest_word_match rows4 q0).1 = Except.ok ["a", "b", "c"] :=
  ⟨by rfl, by rfl⟩

/-- Claim C1 (amended).  For every table state and query vector of length 384,
`find_closest_word_match` returns exactly the `min 3 n` stored entries with
smallest L2 distance to the query, ordered ascending by that distance: the
distance-sorted rows split as `t ++ d` with the result being the texts of `t`,
every member of `t` at most as far as every member of `d`, and
`|t| = min 3 n`.  (`k` is fixed at 3 by the query's `LIMIT`; it is not a
parameter.) -/
theorem find_closest_returns_min3_smallest (rows : List Record) (q : List ℤ)
    (h : q.length = dim) :
    ∃ t d : List Record,
      rows.Perm (t ++ d) ∧
      (find_closest_word_match rows q).1 = Except.ok (t.map Record.text) ∧
      List.Sorted (distLe q) t ∧
      (∀ a ∈ t, ∀ b ∈ d, distLe q a b) ∧
      t.length = min 3 rows.length :=
  find_closest_topThree rows q h

/-- Witness for the amended claim C1, at the four-row table `rows4` and the
length-384 query `q0`. -/
theorem find_closest_returns_min3_smallest_witness :
    q0.length = dim ∧
    (∃ t d : List Record,
      rows4.Perm (t ++ d) ∧
      (find_closest_word_match rows4 q0).1 = Except.ok (t.map Record.text) ∧
      List.Sorted (distLe q0) t ∧
      (∀ a ∈ t, ∀ b ∈ d, distLe q0 a b) ∧
      t.length = min 3 rows4.length) :=
  ⟨by rfl, find_closest_returns_min3_smallest rows4 q0 (by rfl)⟩

/-- Claim C2.  Every batch accepted without error consists only of
length-384 vectors, and inserting a single record whose vector length is not
384 fails with the dimension-mismatch error and leaves the table exactly as it
was before the call. -/
theorem insert_dimension_invariant (rows batch : List Record) (r : Record) :
    ((insert_words_into_db rows batch).2.1 = none →
      ∀ s ∈ batch, s.vec.length = dim) ∧
    (¬ r.vec.length = dim →
      insert_words_into_db rows [r] =
        (rows, some VErr.dimensionMismatch, false)) := by
  constructor
  · intro hnone
    exact insertLoop_ok_valid batch rows hnone
  · intro hr
    simp [insert_words_into_db, insertLoop, hr]

/-- Witness for claim C2: a valid single-record batch is accepted, and the
invalid record `⟨"bad", [0]⟩` is rejected leaving the empty table empty. -/
theorem insert_dimension_invariant_witness :
    (insert_words_into_db [] [⟨"sun", vecOf 1⟩]).2.1 = none ∧
    (∀ s ∈ [(⟨"sun", vecOf 1⟩ : Record)], s.vec.length = dim) ∧
    ¬ (⟨"bad", ([0] : List ℤ)⟩ : Record).vec.length = dim ∧
    insert_words_into_db [] [⟨"bad", [0]⟩] =
      ([], some VErr.dimensionMismatch, false) :=
  ⟨by rfl,
   (insert_dimension_invariant [] [⟨"sun", vecOf 1⟩] ⟨"bad", [0]⟩).1 (by rfl),
   by decide,
   (insert_dimension_invariant [] [⟨"sun", vecOf 1⟩] ⟨"bad", [0]⟩).2 (by decide)⟩

/-- Claim C3 (counterexample).  Batch insertion is not atomic: each `INSERT`
auto-commits, so after the batch `[good, bad]` fails on its second record, the
first record is still visible in the table. -/
theorem insert_batch_not_atomic :
    insert_words_into_db [] [⟨"good", vecOf 1⟩, ⟨"bad", [0]⟩] =
      ([⟨"good", vecOf 1⟩], some VErr.dimensionMismatch, false) := by rfl

/-- Claim C3 (amended).  A batch containing an invalid record fails with the
dimension-mismatch error at the first invalid record, and the valid records
preceding it remain visible in the table (per-row granularity, not batch
atomicity). -/
theorem insert_stops_at_first_invalid (rows pre post : List Record)
    (r : Record) (hpre : ∀ s ∈ pre, s.vec.length = dim)
    (hr : ¬ r.vec.length = dim) :
    insert_words_into_db rows (pre ++ r :: post) =
      (rows ++ pre, some VErr.dimensionMismatch, false) := by
  have h := insertLoop_stops_at_invalid pre rows post r hpre hr
  simp [insert_words_into_db, h]

/-- Witness for the amended claim C3, at the concrete batch `[good, bad]`. -/
theorem insert_stops_at_first_invalid_witness :
    (∀ s ∈ [(⟨"good", vecOf 1⟩ : Record)], s.vec.length = dim) ∧
    ¬ (⟨"bad", ([0] : List ℤ)⟩ : Record).vec.length = dim ∧
    insert_words_into_db [] ([⟨"good", vecOf 1⟩] ++ (⟨"bad", [0]⟩ : Record) :: []) =
      ([] ++ [⟨"good", vecOf 1⟩], some VErr.dimensionMismatch, false) :=
  ⟨by decide, by decide,
   insert_stops_at_first_invalid [] [⟨"good", vecOf 1⟩] [] ⟨"bad", [0]⟩
     (by decide) (by decide)⟩

/-- Claim C4.  From any catalog whose `my_hnsw_index` entries (if any) live on
the embeddings table — which is every state this DAG can reach, since only
`create_vector_table` creates indexes — table creation succeeds, yields an
empty embeddings table, and doing it twice in succession succeeds again with
an empty table each time: `CREATE OR REPLACE TABLE` drops the prior table and
its index, so nothing accumulates and nothing fails as already-existing. -/
theorem create_table_idempotent (db : DB) (nm₁ nm₂ : String)
    (h : ∀ p ∈ db.indexes, p.1 = "my_hnsw_index" → p.2 = "embeddings_table") :
    (create_vector_table db nm₁).2.1 = none ∧
    (create_vector_table db nm₁).1.rowsOf "embeddings_table" = [] ∧
    (create_vector_table (create_vector_table db nm₁).1 nm₂).2.1 = none ∧
    (create_vector_table (create_vector_table db nm₁).1 nm₂).1.rowsOf
      "embeddings_table" = [] := by
  have h₁ := create_vector_table_ok db nm₁ h
  have h' : ∀ p ∈ (create_vector_table db nm₁).1.indexes,
      p.1 = "my_hnsw_index" → p.2 = "embeddings_table" := by
    rw [h₁]
    intro p hp hfst
    rcases List.mem_cons.mp hp with hph | hpt
    · rw [hph]
    · exact h p (List.mem_of_mem_filter hpt) hfst
  have h₂ := create_vector_table_ok (create_vector_table db nm₁).1 nm₂ h'
  refine ⟨by rw [h₁], ?_, by rw [h₂], ?_⟩
  · rw [h₁]; exact rowsOf_head _ _ _ _
  · rw [h₂]; exact rowsOf_head _ _ _ _

/-- Witness for claim C4, at a catalog already holding a populated embeddings
table and its index: creation empties it twice in a row without error. -/
theorem create_table_idempotent_witness :
    (∀ p ∈ (DB.mk [("embeddings_table", [⟨"old", vecOf 5⟩])]
        [("my_hnsw_index", "embeddings_table")]).indexes,
      p.1 = "my_hnsw_index" → p.2 = "embeddings_table") ∧
    ((create_vector_table (DB.mk [("embeddings_table", [⟨"old", vecOf 5⟩])]
        [("my_hnsw_index", "embeddings_table")]) "t1").2.1 = none ∧
     (create_vector_table (DB.mk [("embeddings_table", [⟨"old", vecOf 5⟩])]
        [("my_hnsw_index", "embeddings_table")]) "t1").1.rowsOf
        "embeddings_table" = [] ∧
     (create_vector_table (create_vector_table
        (DB.mk [("embeddings_table", [⟨"old", vecOf 5⟩])]
          [("my_hnsw_index", "embeddings_table")]) "t1").1 "t2").2.1 = none ∧
     (create_vector_table (create_vector_table
        (DB.mk [("embeddings_table", [⟨"old", vecOf 5⟩])]
          [("my_hnsw_index", "embeddings_table")]) "t1").1 "t2").1.rowsOf
        "embeddings_table" = []) :=
  ⟨by decide,
   create_table_idempotent
     (DB.mk [("embeddings_table", [⟨"old", vecOf 5⟩])]
       [("my_hnsw_index", "embeddings_table")]) "t1" "t2" (by decide)⟩

/-- Claim C5 (counterexample).  The query selects only the `text` column, so
the returned entries carry no distance: two tables storing "sun" at different
distances from the query (1 and 4) produce the very same result, which could
not happen if each returned entry carried its distance. -/
theorem find_closest_result_carries_no_distance :
    (find_closest_word_match [⟨"sun", vecOf 1⟩] q0).1 =
      (find_closest_word_match [⟨"sun", vecOf 2⟩] q0).1 ∧
    distSq q0 (vecOf 1) ≠ distSq q0 (vecOf 2) :=
  ⟨by rfl, by decide⟩

/-- Claim C5 (amended).  For every query vector of length 384 the operation
returns an ordered sequence of up to 3 bare text entries — the texts of rows
sorted ascending by distance to the query — with no distance attached
(`SELECT text` only). -/
theorem find_closest_returns_texts_only (rows : List Record) (q : List ℤ)
    (h : q.length = dim) :
    ∃ t d : List Record,
      rows.Perm (t ++ d) ∧
      (find_closest_word_match rows q).1 = Except.ok (t.map Record.text) ∧
      List.Sorted (distLe q) t ∧
      t.length ≤ 3 := by
  obtain ⟨t, d, h₁, h₂, h₃, _, h₅⟩ := find_closest_topThree rows q h
  refine ⟨t, d, h₁, h₂, h₃, ?_⟩
  rw [h₅]
  exact Nat.min_le_left 3 rows.length

/-- Witness for the amended claim C5, at the four-row table `rows4`. -/
theorem find_closest_returns_texts_only_witness :
    q0.length = dim ∧
    (∃ t d : List Record,
      rows4.Perm (t ++ d) ∧
      (find_closest_word_match rows4 q0).1 = Except.ok (t.map Record.text) ∧
      List.Sorted (distLe q0) t ∧
      t.length ≤ 3) :=
  ⟨by rfl, find_closest_returns_texts_only rows4 q0 (by rfl)⟩

/-- Claim C6 (counterexample).  With two records at the same distance from the
query, the result order follows insertion order: inserting `[a, b]` yields
`["a", "b"]` while inserting the permuted batch `[b, a]` yields `["b", "a"]`,
so a permutation of the batch does change the query result. -/
theorem find_closest_insertion_order_tie :
    ([⟨"b", vecOf 0⟩, ⟨"a", vecOf 0⟩] : List Record).Perm
      [⟨"a", vecOf 0⟩, ⟨"b", vecOf 0⟩] ∧
    (find_closest_word_match
        (insert_words_into_db [] [⟨"a", vecOf 0⟩, ⟨"b", vecOf 0⟩]).1 q0).1 =
      Except.ok ["a", "b"] ∧
    (find_closest_word_match
        (insert_words_into_db [] [⟨"b", vecOf 0⟩, ⟨"a", vecOf 0⟩]).1 q0).1 =
      Except.ok ["b", "a"] ∧
    ("a" : String) ≠ "b" :=
  ⟨List.Perm.swap _ _ _, by rfl, by rfl, by decide⟩

/-- Claim C6 (amended).  When the batch's records lie at pairwise distinct
distances from the query (no ties), inserting any permutation of the batch and
querying yields the same result: ranking is by distance, and insertion order
only matters for breaking ties between equal distances. -/
theorem find_closest_perm_invariant (batch₁ batch₂ : List Record) (q : List ℤ)
    (hperm : batch₁.Perm batch₂)
    (hval : ∀ r ∈ batch₁, r.vec.length = dim)
    (hd : batch₁.Pairwise fun a b => distSq q a.vec ≠ distSq q b.vec) :
    find_closest_word_match (insert_words_into_db [] batch₁).1 q =
      find_closest_word_match (insert_words_into_db [] batch₂).1 q := by
  have hval₂ : ∀ r ∈ batch₂, r.vec.length = dim :=
    fun r hr => hval r (hperm.mem_iff.mpr hr)
  have h₁ : (insert_words_into_db [] batch₁).1 = batch₁ := by
    simp [insert_words_into_db, insertLoop_all_valid batch₁ [] hval]
  have h₂ : (insert_words_into_db [] batch₂).1 = batch₂ := by
    simp [insert_words_into_db, insertLoop_all_valid batch₂ [] hval₂]
  rw [h₁, h₂]
  by_cases h : q.length = dim
  · simp [find_closest_word_match, h,
      insertionSort_eq_of_perm_of_ne q hperm hd]
  · simp [find_closest_word_match, h]

/-- Witness for the amended claim C6, at a two-record batch with distances
1 and 4 from `q0` and its reversal. -/
theorem find_closest_perm_invariant_witness :
    ([⟨"a", vecOf 1⟩, ⟨"b", vecOf 2⟩] : List Record).Perm
      [⟨"b", vecOf 2⟩, ⟨"a", vecOf 1⟩] ∧
    (∀ r ∈ ([⟨"a", vecOf 1⟩, ⟨"b", vecOf 2⟩] : List Record),
      r.vec.length = dim) ∧
    ([⟨"a", vecOf 1⟩, ⟨"b", vecOf 2⟩] : List Record).Pairwise
      (fun a b => distSq q0 a.vec ≠ distSq q0 b.vec) ∧
    find_closest_word_match
        (insert_words_into_db [] [⟨"a", vecOf 1⟩, ⟨"b", vecOf 2⟩]).1 q0 =
      find_closest_word_match
        (insert_words_into_db [] [⟨"b", vecOf 2⟩, ⟨"a", vecOf 1⟩]).1 q0 :=
  ⟨List.Perm.swap _ _ _, by decide, by decide,
   find_closest_perm_invariant
     [⟨"a", vecOf 1⟩, ⟨"b", vecOf 2⟩] [⟨"b", vecOf 2⟩, ⟨"a", vecOf 1⟩] q0
     (List.Perm.swap _ _ _) (by decide) (by decide)⟩

/-- Claim C7.  Querying a freshly created, empty table with a length-384
query vector returns the empty sequence — no error, no crash, a
well-defined-length result. -/
theorem find_closest_empty_table (q : List ℤ) (h : q.length = dim) :
    find_closest_word_match [] q = (Except.ok [], false) := by
  simp [find_closest_word_match, h]

/-- Witness for claim C7, at the length-384 query `q0`. -/
theorem find_closest_empty_table_witness :
    q0.length = dim ∧ find_closest_word_match [] q0 = (Except.ok [], false) :=
  ⟨by rfl, find_closest_empty_table q0 (by rfl)⟩

/-- Claim C8 (counterexample).  `find_closest_word_match` contains no
`cursor.close()` call at all: even on a successful query against the empty
table the connection is not released, refuting the claim that the handle is
released on every exit path of every operation. -/
theorem find_closest_never_closes :
    (find_closest_word_match [] q0).1 = Except.ok [] ∧
    (find_closest_word_match [] q0).2 = false :=
  ⟨by rfl, by rfl⟩

/-- Claim C8 (amended).  `create_vector_table` and `insert_words_into_db`
release the connection exactly on their success path (the trailing
`cursor.close()` is skipped when a statement raises), and
`find_closest_word_match` never explicitly releases it. -/
theorem handle_release_on_success_only (db : DB) (nm : String)
    (rows batch : List Record) (q : List ℤ) :
    ((create_vector_table db nm).2.2 = true ↔
      (create_vector_table db nm).2.1 = none) ∧
    ((insert_words_into_db rows batch).2.2 = true ↔
      (insert_words_into_db rows batch).2.1 = none) ∧
    (find_closest_word_match rows q).2 = false := by
  refine ⟨?_, ?_, ?_⟩
  · simp only [create_vector_table]
    split <;> simp
  · simp [insert_words_into_db, Option.isNone_iff_eq_none]
  · simp only [find_closest_word_match]
    split <;> rfl

/-- Claim C9.  `create_vector_table` ignores its `table_name` argument: the
result is the same for any two caller-supplied names, and the table it writes
is always the one named "embeddings_table". -/
theorem create_table_ignores_name (db : DB) (nm₁ nm₂ : String) :
    create_vector_table db nm₁ = create_vector_table db nm₂ ∧
    ("embeddings_table", ([] : List Record)) ∈
      (create_vector_table db nm₁).1.tables := by
  refine ⟨rfl, ?_⟩
  simp only [create_vector_table]
  split
  · exact List.mem_cons_self _ _
  · exact List.mem_cons_self _ _

/-- Claim C10.  For every table state and every length-384 query vector, the
query succeeds and returns exactly `min 3 n` entries, `n` the number of rows:
the `LIMIT` is the fixed constant 3 and no `k` parameter exists. -/
theorem find_closest_length_min3 (rows : List Record) (q : List ℤ)
    (h : q.length = dim) :
    ∃ l : List String, (find_closest_word_match rows q).1 = Except.ok l ∧
      l.length = min 3 rows.length := by
  refine ⟨((List.insertionSort (distLe q) rows).map Record.text).take 3,
    ?_, ?_⟩
  · simp [find_closest_word_match, h]
  · rw [List.length_take, List.length_map,
      (List.perm_insertionSort (distLe q) rows).length_eq]

/-- Witness for claim C10, at the four-row table `rows4`: the query returns
`min 3 4 = 3` entries. -/
theorem find_closest_length_min3_witness :
    q0.length = dim ∧
    (∃ l : List String, (find_closest_word_match rows4 q0).1 = Except.ok l ∧
      l.length = min 3 rows4.length) :=
  ⟨by rfl, find_closest_length_min3 rows4 q0 (by rfl)⟩

end VectorEmbeddings
